import Mathlib

/-!
Verification of the Sleeper league lookup frontend: the scoring-rule catalog,
the scoring-settings normalizer, the API client layer, and the session
orchestrator of the lookup form.  Definitions are shallow embeddings of the
TypeScript source in src/frontend.
-/

/-- Runtime values of the raw scoring-settings mapping, as far as the
normalizer distinguishes them: the code only tests `typeof value === "number"`
and compares against zero, so a value is either a number or some non-numeric
value. -/
inductive JsVal where
  | num (q : Rat)
  | nonnum
deriving DecidableEq, Repr

/-- A raw scoring-settings object: an association list of own properties in
insertion order, with distinct keys (JavaScript object semantics). -/
abbrev RawSettings := List (String × JsVal)

/-- Entry of the static scoring-rule registry (interface ScoringRule in
scoringUtils.ts). -/
structure ScoringRule where
  key : String
  label : String
  threshold : Option Rat
deriving DecidableEq, Repr

/-- Output entry of the normalizer (interface FormattedScoringSetting). -/
structure FormattedScoringSetting where
  label : String
  value : Rat
deriving DecidableEq, Repr

/-- The threshold 0.04 of the pass_yd entry, written as an explicit reduced
fraction so that kernel reduction can evaluate it (the decimal literal
elaborates through an irreducible scientific-notation function). -/
def ratFourHundredths : Rat := ⟨1, 25, by decide, by decide⟩

/-- The hand-maintained registration list ALL_SCORING_RULES from
scoringUtils.ts, transcribed entry for entry (commented-out entries of the
source are omitted, as they are in the running code). -/
def ALL_SCORING_RULES : List ScoringRule := [
  ScoringRule.mk "pass_td" "Pass TD" none,
  ScoringRule.mk "pass_yd" "Pass Yards" (some ratFourHundredths),
  ScoringRule.mk "rec" "PPR" none,
  ScoringRule.mk "rush_td" "Rush TD" none,
  ScoringRule.mk "rec_td" "Rec TD" none,
  ScoringRule.mk "bonus_rec_te" "TEP" none,
  ScoringRule.mk "sack" "Sack" none,
  ScoringRule.mk "idp_tkl_ast" "IDP Assisted Tackles" none,
  ScoringRule.mk "st_ff" "Special Teams Forced Fumbles" none,
  ScoringRule.mk "idp_ff" "IDP Forced Fumbles" none,
  ScoringRule.mk "pts_allow_7_13" "Points Allowed (7-13)" none,
  ScoringRule.mk "pass_inc" "Incomplete Passes" none,
  ScoringRule.mk "def_st_ff" "Defensive Special Teams Forced Fumbles" none,
  ScoringRule.mk "fum_ret_yd" "Fumble Return Yards" none,
  ScoringRule.mk "bonus_fd_rb" "Bonus RB First Downs" none,
  ScoringRule.mk "bonus_fd_te" "Bonus TE First Downs" none,
  ScoringRule.mk "rush_td_40p" "Rush TD 40+" none,
  ScoringRule.mk "rec_yd" "Receiving Yards" none,
  ScoringRule.mk "fum_rec_td" "Fumble Recovery TD" none,
  ScoringRule.mk "bonus_rush_rec_yd_200" "Bonus 200+ Rush/Rec Yards" none,
  ScoringRule.mk "pts_allow_35p" "Points Allowed (35+)" none,
  ScoringRule.mk "pts_allow_28_34" "Points Allowed (28-34)" none,
  ScoringRule.mk "fum" "Fumbles" none,
  ScoringRule.mk "pr_yd" "Punt Return Yards" none,
  ScoringRule.mk "rush_40p" "Rush 40+" none,
  ScoringRule.mk "bonus_rec_rb" "Bonus RB Receptions" none,
  ScoringRule.mk "yds_allow_0_100" "Yards Allowed (0-100)" none,
  ScoringRule.mk "rush_yd" "Rushing Yards" none,
  ScoringRule.mk "bonus_fd_qb" "Bonus QB First Downs" none,
  ScoringRule.mk "idp_qb_hit" "IDP QB Hits" none,
  ScoringRule.mk "bonus_def_int_td_50p" "Bonus 50+ Def Int TD" none,
  ScoringRule.mk "yds_allow_100_199" "Yards Allowed (100-199)" none,
  ScoringRule.mk "bonus_rush_att_20" "Bonus 20+ Rush Att" none,
  ScoringRule.mk "tkl_solo" "Solo Tackles" none,
  ScoringRule.mk "blk_kick" "Blocked Kicks" none,
  ScoringRule.mk "rec_td_50p" "Rec TD 50+" none,
  ScoringRule.mk "fgmiss_40_49" "Missed FG 40-49" none,
  ScoringRule.mk "safe" "Safeties" none,
  ScoringRule.mk "bonus_rush_yd_200" "Bonus 200+ Rush Yards" none,
  ScoringRule.mk "rec_td_40p" "Rec TD 40+" none,
  ScoringRule.mk "pass_fd" "Passing First Downs" none,
  ScoringRule.mk "idp_fum_rec" "IDP Fumble Recoveries" none,
  ScoringRule.mk "def_td" "Defensive TD" none,
  ScoringRule.mk "bonus_tkl_10p" "Bonus 10+ Tackles" none,
  ScoringRule.mk "fgm_50p" "FG Made 50+" none,
  ScoringRule.mk "pass_cmp_40p" "Pass Comp 40+" none,
  ScoringRule.mk "tkl" "Tackles" none,
  ScoringRule.mk "def_st_td" "Def ST TD" none,
  ScoringRule.mk "bonus_rec_yd_200" "Bonus 200+ Rec Yards" none,
  ScoringRule.mk "rec_10_19" "Rec 10-19" none,
  ScoringRule.mk "idp_pass_def" "IDP Pass Def" none,
  ScoringRule.mk "fum_rec" "Fumble Recoveries" none,
  ScoringRule.mk "yds_allow_300_349" "Yards Allowed (300-349)" none,
  ScoringRule.mk "def_pass_def" "Def Pass Def" none,
  ScoringRule.mk "rush_2pt" "Rush 2PT" none,
  ScoringRule.mk "tkl_loss" "Tackles for Loss" none,
  ScoringRule.mk "pass_cmp" "Pass Completions" none,
  ScoringRule.mk "fgmiss_0_19" "Missed FG 0-19" none,
  ScoringRule.mk "def_3_and_out" "Def 3 and Out" none,
  ScoringRule.mk "rec_40p" "Rec 40+" none,
  ScoringRule.mk "pass_sack" "Pass Sacks" none,
  ScoringRule.mk "pass_td_50p" "Pass TD 50+" none,
  ScoringRule.mk "xpm" "XP Made" none,
  ScoringRule.mk "bonus_pass_yd_300" "Bonus 300+ Pass Yards" none,
  ScoringRule.mk "bonus_rec_wr" "Bonus WR Rec" none,
  ScoringRule.mk "pts_allow_21_27" "Points Allowed (21-27)" none,
  ScoringRule.mk "yds_allow_500_549" "Yards Allowed (500-549)" none,
  ScoringRule.mk "fgm_20_29" "FG Made 20-29" none,
  ScoringRule.mk "idp_sack" "IDP Sacks" none,
  ScoringRule.mk "rec_5_9" "Rec 5-9" none,
  ScoringRule.mk "yds_allow" "Yards Allowed" none,
  ScoringRule.mk "st_tkl_solo" "ST Solo Tackles" none,
  ScoringRule.mk "rush_att" "Rush Attempts" none,
  ScoringRule.mk "fgmiss_20_29" "Missed FG 20-29" none,
  ScoringRule.mk "kr_yd" "Kick Return Yards" none,
  ScoringRule.mk "rec_fd" "Receiving First Downs" none,
  ScoringRule.mk "pts_allow_1_6" "Points Allowed (1-6)" none,
  ScoringRule.mk "fum_lost" "Fumbles Lost" none,
  ScoringRule.mk "def_st_fum_rec" "Def ST Fum Rec" none,
  ScoringRule.mk "int" " Def Interceptions" none,
  ScoringRule.mk "idp_pass_def_3p" "IDP Pass Def 3+" none,
  ScoringRule.mk "idp_def_td" "IDP Def TD" none,
  ScoringRule.mk "fgm_0_19" "FG Made 0-19" none,
  ScoringRule.mk "def_2pt" "Def 2PT" none,
  ScoringRule.mk "pts_allow_14_20" "Points Allowed (14-20)" none,
  ScoringRule.mk "idp_safe" "IDP Safety" none,
  ScoringRule.mk "idp_int_ret_yd" "IDP Int Ret Yards" none,
  ScoringRule.mk "yds_allow_200_299" "Yards Allowed (200-299)" none,
  ScoringRule.mk "fgmiss_30_39" "Missed FG 30-39" none,
  ScoringRule.mk "bonus_sack_2p" "Bonus 2+ Sacks" none,
  ScoringRule.mk "idp_int" "IDP Interceptions" none,
  ScoringRule.mk "ff" "Forced Fumbles" none,
  ScoringRule.mk "bonus_def_fum_td_50p" "Bonus 50+ Def Fum TD" none,
  ScoringRule.mk "fgmiss" "Missed FG" none,
  ScoringRule.mk "st_fum_rec" "ST Fum Rec" none,
  ScoringRule.mk "pass_att" "Pass Attempts" none,
  ScoringRule.mk "idp_tkl_solo" "IDP Solo Tackles" none,
  ScoringRule.mk "int_ret_yd" "Int Ret Yards" none,
  ScoringRule.mk "pass_int_td" "Pass Int TD" none,
  ScoringRule.mk "rush_fd" "Rush First Downs" none,
  ScoringRule.mk "idp_tkl_loss" "IDP Tkl Loss" none,
  ScoringRule.mk "bonus_pass_cmp_25" "Bonus 25+ Pass Comp" none,
  ScoringRule.mk "rec_2pt" "Rec 2PT" none,
  ScoringRule.mk "bonus_rush_rec_yd_100" "Bonus 100+ Rush/Rec Yards" none,
  ScoringRule.mk "idp_sack_yd" "IDP Sack Yards" none,
  ScoringRule.mk "fgm" "Field Goals Made" none,
  ScoringRule.mk "yds_allow_350_399" "Yards Allowed (350-399)" none,
  ScoringRule.mk "def_st_tkl_solo" "Def ST Solo Tackles" none,
  ScoringRule.mk "pass_td_40p" "Pass TD 40+" none,
  ScoringRule.mk "yds_allow_550p" "Yards Allowed (550+)" none,
  ScoringRule.mk "idp_tkl" "IDP Tackles" none,
  ScoringRule.mk "fg_ret_yd" "FG Ret Yards" none,
  ScoringRule.mk "def_4_and_stop" "Def 4th Down Stops" none,
  ScoringRule.mk "pts_allow" "Points Allowed" none,
  ScoringRule.mk "bonus_fd_wr" "Bonus WR First Downs" none,
  ScoringRule.mk "def_kr_yd" "Def KR Yards" none,
  ScoringRule.mk "rush_td_50p" "Rush TD 50+" none,
  ScoringRule.mk "xpmiss" "Missed XP" none,
  ScoringRule.mk "idp_fum_ret_yd" "IDP Fum Ret Yards" none,
  ScoringRule.mk "fgm_30_39" "FG Made 30-39" none,
  ScoringRule.mk "idp_blk_kick" "IDP Blocked Kicks" none,
  ScoringRule.mk "rec_20_29" "Rec 20-29" none,
  ScoringRule.mk "tkl_ast" "Assisted Tackles" none,
  ScoringRule.mk "yds_allow_400_449" "Yards Allowed (400-449)" none,
  ScoringRule.mk "fgm_yds_over_30" "FG Yards Over 30" none,
  ScoringRule.mk "sack_yd" "Sack Yards" none,
  ScoringRule.mk "rec_30_39" "Rec 30-39" none,
  ScoringRule.mk "def_pr_yd" "Def PR Yards" none,
  ScoringRule.mk "st_td" "ST TD" none,
  ScoringRule.mk "blk_kick_ret_yd" "Blocked Kick Ret Yards" none,
  ScoringRule.mk "yds_allow_450_499" "Yards Allowed (450-499)" none,
  ScoringRule.mk "rec_0_4" "Rec 0-4" none,
  ScoringRule.mk "pass_2pt" "Pass 2PT" none,
  ScoringRule.mk "bonus_pass_yd_400" "Bonus 400+ Pass Yards" none,
  ScoringRule.mk "pts_allow_0" "Points Allowed (0)" none,
  ScoringRule.mk "fgmiss_50p" "Missed FG 50+" none,
  ScoringRule.mk "def_forced_punts" "Def Forced Punts" none,
  ScoringRule.mk "fgm_yds" "FG Yards" none,
  ScoringRule.mk "fgm_40_49" "FG Made 40-49" none,
  ScoringRule.mk "qb_hit" "QB Hits" none
]

/-- Recursive form of the uniqueScoringRules filter: keep a rule only if its
key has not been seen, recording seen keys as we go.  The seen set is the
accumulated filter state of the source (const seenKeys = new Set). -/
def uniqueScoringRulesAux (seen : List String) : List ScoringRule → List ScoringRule
  | [] => []
  | r :: rs =>
    if r.key ∈ seen then uniqueScoringRulesAux seen rs
    else r :: uniqueScoringRulesAux (r.key :: seen) rs

/-- The uniqueScoringRules construction of scoringUtils.ts, parametrized by
the registration list it filters. -/
def uniqueScoringRules (rules : List ScoringRule) : List ScoringRule :=
  uniqueScoringRulesAux [] rules

/-- UNIQUE_SCORING_RULES, the active catalog: the registry deduplicated with
first-registered-wins. -/
def UNIQUE_SCORING_RULES : List ScoringRule :=
  uniqueScoringRules ALL_SCORING_RULES

/-- EXPLICIT_DISPLAY_KEYS from scoringUtils.ts. -/
def EXPLICIT_DISPLAY_KEYS : List String :=
  ["rec", "pass_td", "bonus_rec_te", "pass_sack"]

/-- The bonus naming-convention test, settingKey.startsWith of the fixed
marker bonus_, computed on the character lists of the strings (byte prefix
and character prefix agree on valid text). -/
def isBonusKey (key : String) : Bool :=
  "bonus_".data.isPrefixOf key.data

/-- JavaScript regular-expression word character, the class matched by a
backslash-w: ASCII letters, digits and the underscore. -/
def jsWordChar (c : Char) : Bool :=
  c.isAlphanum || c == '_'

/-- One left-to-right sweep of the replacement of every word character at a
word boundary by its upper case, as the regular expression replace with the
global flag performs it.  The boolean argument records whether the previous
character was a word character (false at the start of the string). -/
def capitalizeMatches : Bool → List Char → List Char
  | _, [] => []
  | prevWord, c :: cs =>
    (if !prevWord && jsWordChar c then c.toUpper else c) ::
      capitalizeMatches (jsWordChar c) cs

/-- Label synthesis for unknown bonus keys:
apiKey.replace(underscores, spaces) followed by upper-casing the first letter
of each word. -/
def humanizeKey (key : String) : String :=
  String.mk (capitalizeMatches false
    (key.toList.map (fun c => if c == '_' then ' ' else c)))

/-- Pass 1 of getDisplayableScoringSettings: iterate the catalog in order; for
each rule whose key is a property of the raw mapping and not yet processed,
with a nonzero numeric value, gated by the explicit allow-list or the bonus
prefix, push the entry and mark the key processed.  Entries are returned
together with the key of the push site so that provenance can be stated; the
list the source builds is the map of Prod.snd over this list. -/
def pass1 (apiSettings : RawSettings) :
    List ScoringRule → List String → List (String × FormattedScoringSetting) × List String
  | [], processedKeys => ([], processedKeys)
  | rule :: rest, processedKeys =>
    match apiSettings.lookup rule.key with
    | none => pass1 apiSettings rest processedKeys
    | some v =>
      if rule.key ∈ processedKeys then pass1 apiSettings rest processedKeys
      else
        match v with
        | JsVal.num q =>
          if q ≠ 0 ∧ (rule.key ∈ EXPLICIT_DISPLAY_KEYS ∨ isBonusKey rule.key = true) then
            let r := pass1 apiSettings rest (rule.key :: processedKeys)
            ((rule.key, ⟨rule.label, q⟩) :: r.1, r.2)
          else pass1 apiSettings rest processedKeys
        | JsVal.nonnum => pass1 apiSettings rest processedKeys

/-- Label chosen by pass 2 for a bonus key: the label of the catalog rule
found for the key, otherwise the humanized key. -/
def pass2Label (apiKey : String) : String :=
  match UNIQUE_SCORING_RULES.find? (fun r => r.key == apiKey) with
  | some r => r.label
  | none => humanizeKey apiKey

/-- Pass 2 of getDisplayableScoringSettings: iterate the own properties of the
raw mapping; a key not processed in pass 1 that carries the bonus prefix and a
nonzero numeric value is pushed with the pass-2 label.  The processed set is
not extended (the source comments the add out). -/
def pass2 (processedKeys : List String) : List (String × JsVal) → List (String × FormattedScoringSetting)
  | [] => []
  | (apiKey, v) :: rest =>
    if apiKey ∉ processedKeys ∧ isBonusKey apiKey = true then
      match v with
      | JsVal.num q =>
        if q ≠ 0 then (apiKey, ⟨pass2Label apiKey, q⟩) :: pass2 processedKeys rest
        else pass2 processedKeys rest
      | JsVal.nonnum => pass2 processedKeys rest
    else pass2 processedKeys rest

/-- Comparator of the final sort, induced by the locale comparison lcmp on
labels: a before b when lcmp of the labels is at most zero, as the JavaScript
sort treats the comparator. -/
def settingLe (lcmp : String → String → Int) (a b : FormattedScoringSetting) : Prop :=
  lcmp a.label b.label ≤ 0

instance settingLeDec (lcmp : String → String → Int) : DecidableRel (settingLe lcmp) :=
  fun a b => inferInstanceAs (Decidable (lcmp a.label b.label ≤ 0))

/-- The displaySettings array right before the in-place sort: the pass-1
pushes followed by the pass-2 pushes, pass 2 reading the processed set pass 1
built, with the provenance keys dropped. -/
def combinedSettings (raw : RawSettings) : List FormattedScoringSetting :=
  ((pass1 raw UNIQUE_SCORING_RULES []).1 ++
    pass2 (pass1 raw UNIQUE_SCORING_RULES []).2 raw).map Prod.snd

/-- getDisplayableScoringSettings of scoringUtils.ts, parametrized by the
locale comparison lcmp that localeCompare denotes in the running environment.
A null or undefined raw mapping yields the empty list; otherwise both passes
run and the result is sorted by label. -/
def getDisplayableScoringSettings (lcmp : String → String → Int)
    (apiSettings : Option RawSettings) : List FormattedScoringSetting :=
  match apiSettings with
  | none => []
  | some raw => List.insertionSort (settingLe lcmp) (combinedSettings raw)

/-- Resolved user record (interface SleeperResolvedUser in types/sleeper.ts).
The error-only object built by the catch clause of resolveSleeperInput leaves
user_id and display_name absent; absence is modelled as the empty string,
which is what the truthiness tests of the form distinguish. -/
structure SleeperResolvedUser where
  user_id : String
  display_name : String
  error : Option String
deriving DecidableEq, Repr

/-- Basic league membership record (interface BasicSleeperLeague). -/
structure BasicSleeperLeague where
  league_id : String
  name : String
  season : String
deriving DecidableEq, Repr

/-- League settings sub-record (interface LeagueSettingDetails). -/
structure LeagueSettingDetails where
  type : Option Int
  playoff_week_start : Option Int
deriving DecidableEq, Repr

/-- Roster record (interface RosterDetail). -/
structure RosterDetail where
  roster_id : Int
  owner_id : Option String
  owner_display_name : Option String
  wins : Option Int
  losses : Option Int
  ties : Option Int
  fpts : Option Rat
deriving DecidableEq, Repr

/-- Full league detail record (interface LeagueDetails). -/
structure LeagueDetails where
  league_id : String
  name : String
  season : String
  status : String
  total_rosters : Int
  scoring_settings : Option RawSettings
  roster_positions : Option (List String)
  settings : Option LeagueSettingDetails
  rosters : List RosterDetail
deriving DecidableEq, Repr

/-- Outcome of the network round trip of the resolve-user call, as the client
code distinguishes it: a parsed 2xx body, a non-2xx response whose body may or
may not carry a detail string, or a transport failure whose exception carries
a message. -/
inductive ResolveOutcome where
  | success (u : SleeperResolvedUser)
  | httpError (detail : Option String) (status : Nat)
  | transportError (msg : String)
deriving DecidableEq, Repr

/-- Generic status-coded message built at a non-ok response. -/
def httpStatusMsg (status : Nat) : String :=
  "HTTP error! status: " ++ toString status

/-- Body of the try block of resolveSleeperInput: Except.error is a thrown
exception carrying its message.  The missing-base-URL throw is inside the try;
a non-ok response throws the detail of the body when that is a nonempty
string, else the generic status message (the JavaScript or-else on the
detail); an ok body is returned whether or not it carries an error field
(both branches return data). -/
def resolveTryBody (baseUrlSet : Bool) (o : ResolveOutcome) :
    Except String SleeperResolvedUser :=
  if baseUrlSet = false then Except.error "API base URL is not configured."
  else
    match o with
    | ResolveOutcome.success u => Except.ok u
    | ResolveOutcome.httpError detail status =>
      Except.error
        (match detail with
         | some d => if d = "" then httpStatusMsg status else d
         | none => httpStatusMsg status)
    | ResolveOutcome.transportError msg => Except.error msg

/-- resolveSleeperInput of lib/api/sleeper.ts: the catch clause turns any
thrown exception into a resolved object whose error field holds the message
of the exception, or the fallback text when that message is empty. -/
def resolveSleeperInput (baseUrlSet : Bool) (o : ResolveOutcome) : SleeperResolvedUser :=
  match resolveTryBody baseUrlSet o with
  | Except.ok d => d
  | Except.error msg =>
    SleeperResolvedUser.mk "" ""
      (some (if msg = "" then "Unknown error during input resolution" else msg))

/-- Outcome of the network round trip of the leagues-for-year call. -/
inductive LeaguesOutcome where
  | success (ls : List BasicSleeperLeague)
  | httpError (detail : Option String) (status : Nat)
  | transportError (msg : String)
deriving DecidableEq, Repr

/-- fetchSleeperLeaguesForYear of lib/api/sleeper.ts.  The missing-base-URL
throw stands before the try block, so it rejects the promise (Except.error);
a non-ok response or a transport failure is thrown inside the try, caught,
and turned into a resolved empty array. -/
def fetchSleeperLeaguesForYear (baseUrlSet : Bool) (o : LeaguesOutcome) :
    Except String (List BasicSleeperLeague) :=
  if baseUrlSet = false then Except.error "API base URL is not configured."
  else
    match o with
    | LeaguesOutcome.success ls => Except.ok ls
    | LeaguesOutcome.httpError _ _ => Except.ok []
    | LeaguesOutcome.transportError _ => Except.ok []

/-- Outcome of the network round trip of the league-details call. -/
inductive DetailOutcome where
  | success (d : LeagueDetails)
  | httpError (detail : Option String) (status : Nat)
  | transportError (msg : String)
deriving DecidableEq, Repr

/-- fetchSleeperLeagueDetails of lib/api/sleeper.ts: rejects when the base URL
is missing (throw before the try); resolves to null on an empty league id
before any network call; a non-ok response or transport failure is caught and
resolved to null. -/
def fetchSleeperLeagueDetails (baseUrlSet : Bool) (leagueId : String) (o : DetailOutcome) :
    Except String (Option LeagueDetails) :=
  if baseUrlSet = false then Except.error "API base URL is not configured."
  else if leagueId = "" then Except.ok none
  else
    match o with
    | DetailOutcome.success d => Except.ok (some d)
    | DetailOutcome.httpError _ _ => Except.ok none
    | DetailOutcome.transportError _ => Except.ok none

/-- Session state owned by SleeperLookupForm (its useState hooks). -/
structure SessionState where
  inputValue : String
  resolvedUser : Option SleeperResolvedUser
  displayName : Option String
  leagues : List BasicSleeperLeague
  selectedLeagueId : String
  selectedLeagueDetails : Option LeagueDetails
  leagueYear : Int
  isLoading : Bool
  isLoadingDetails : Bool
  error : Option String
  leagueDetailsError : Option String
  displayableScoring : List FormattedScoringSetting
deriving DecidableEq, Repr

/-- Truthiness guard of the leagues effect: resolvedUser and
resolvedUser.user_id are both truthy. -/
def identityResolved (s : SessionState) : Prop :=
  ∃ u, s.resolvedUser = some u ∧ u.user_id ≠ ""

/-- Synchronous part of the year selector onValueChange handler: set the new
year and clear league selection, loaded detail and displayable scoring. -/
def seasonSelectChange (s : SessionState) (newYear : Int) : SessionState :=
  { s with leagueYear := newYear, selectedLeagueId := "",
           selectedLeagueDetails := none, displayableScoring := [] }

/-- The leagues effect together with the synchronous prefix of
fetchAndSetLeagues: when an identity is resolved, loading starts, both error
slots are cleared, the league list, selection, detail and scoring are
cleared, and a leagues request is issued for the resolved user id and the
current year.  The issued request is returned alongside the new state; no
request is issued when no identity is resolved. -/
def leaguesEffectStart (s : SessionState) : SessionState × Option (String × Int) :=
  match s.resolvedUser with
  | some u =>
    if u.user_id = "" then (s, none)
    else
      ({ s with isLoading := true, error := none, leagueDetailsError := none,
                leagues := [], selectedLeagueId := "", selectedLeagueDetails := none,
                displayableScoring := [] },
       some (u.user_id, s.leagueYear))
  | none => (s, none)

/-- A season change as the form performs it: the synchronous handler followed
by the effect that re-runs on the changed leagueYear dependency. -/
def seasonChangeStart (s : SessionState) (newYear : Int) : SessionState × Option (String × Int) :=
  leaguesEffectStart (seasonSelectChange s newYear)

/-- Completion of an issued leagues request: a resolved promise stores the
fetched array and ends loading; a rejected promise reaches the catch of
fetchAndSetLeagues, which stores the message (or its fallback) in the general
error slot, and the finally of the effect ends loading. -/
def leaguesFetchComplete (s : SessionState) (baseUrlSet : Bool) (o : LeaguesOutcome) :
    SessionState :=
  match fetchSleeperLeaguesForYear baseUrlSet o with
  | Except.ok ls => { s with leagues := ls, isLoading := false }
  | Except.error msg =>
    { s with error := some (if msg = "" then "Failed to fetch leagues." else msg),
             isLoading := false }

/-- handleLeagueChange of SleeperLookupForm, with the completion of the
detail fetch folded in: select the league, clear the detail-scoped error,
detail and scoring; on a nonempty id run the fetch, storing detail plus
normalized scoring on success, the fixed message when the fetch resolved to
null, and the exception message when it rejected. -/
def handleLeagueChange (lcmp : String → String → Int) (s : SessionState)
    (leagueId : String) (baseUrlSet : Bool) (o : DetailOutcome) : SessionState :=
  let s1 := { s with selectedLeagueId := leagueId, leagueDetailsError := none,
                     selectedLeagueDetails := none, displayableScoring := [] }
  if leagueId = "" then s1
  else
    match fetchSleeperLeagueDetails baseUrlSet leagueId o with
    | Except.ok (some d) =>
      { s1 with selectedLeagueDetails := some d,
                displayableScoring := getDisplayableScoringSettings lcmp d.scoring_settings,
                isLoadingDetails := false }
    | Except.ok none =>
      { s1 with leagueDetailsError := some "Could not fetch details for the selected league.",
                isLoadingDetails := false }
    | Except.error msg =>
      { s1 with leagueDetailsError :=
                  some (if msg = "" then "An error occurred while fetching league details."
                        else msg),
                isLoadingDetails := false }

/-- The filtered registry has pairwise distinct keys, and no key of it lies in
the seen set the filter started from. -/
theorem uniqueScoringRulesAux_nodup_notin :
    ∀ (rules : List ScoringRule) (seen : List String),
      ((uniqueScoringRulesAux seen rules).map ScoringRule.key).Nodup ∧
      ∀ r ∈ uniqueScoringRulesAux seen rules, r.key ∉ seen := by
  intro rules
  induction rules with
  | nil => intro seen; simp [uniqueScoringRulesAux]
  | cons r rs ih =>
    intro seen
    by_cases h : r.key ∈ seen
    · simpa [uniqueScoringRulesAux, h] using ih seen
    · simp only [uniqueScoringRulesAux, if_neg h]
      obtain ⟨hnd, hni⟩ := ih (r.key :: seen)
      refine ⟨?_, ?_⟩
      · simp only [List.map_cons, List.nodup_cons]
        refine ⟨?_, hnd⟩
        intro hmem
        obtain ⟨r2, hr2, hk⟩ := List.mem_map.1 hmem
        exact hni r2 hr2 (hk ▸ List.mem_cons_self _ _)
      · intro x hx
        rcases List.mem_cons.1 hx with rfl | hx2
        · exact h
        · intro hxs
          exact hni x hx2 (List.mem_cons_of_mem _ hxs)

/-- A key appears among the filtered rules exactly when it is not already
seen and appears among the input rules. -/
theorem uniqueScoringRulesAux_mem_key :
    ∀ (rules : List ScoringRule) (seen : List String) (k : String),
      (∃ r ∈ uniqueScoringRulesAux seen rules, r.key = k) ↔
        (k ∉ seen ∧ ∃ r ∈ rules, r.key = k) := by
  intro rules
  induction rules with
  | nil => intro seen k; simp [uniqueScoringRulesAux]
  | cons r rs ih =>
    intro seen k
    by_cases h : r.key ∈ seen
    · by_cases hk : r.key = k
      · subst hk
        simp only [uniqueScoringRulesAux, if_pos h, ih]
        constructor
        · rintro ⟨hns, hex⟩; exact absurd h hns
        · rintro ⟨hns, _⟩; exact absurd h hns
      · simp only [uniqueScoringRulesAux, if_pos h, ih, List.mem_cons]
        constructor
        · rintro ⟨hns, x, hx, hxk⟩; exact ⟨hns, x, Or.inr hx, hxk⟩
        · rintro ⟨hns, x, hx | hx, hxk⟩
          · exact absurd (hx ▸ hxk) hk
          · exact ⟨hns, x, hx, hxk⟩
    · simp only [uniqueScoringRulesAux, if_neg h, List.mem_cons]
      constructor
      · rintro ⟨x, hx | hx, hxk⟩
        · subst hx; exact ⟨hxk ▸ h, x, Or.inl rfl, hxk⟩
        · obtain ⟨hns, y, hy, hyk⟩ := (ih (r.key :: seen) k).1 ⟨x, hx, hxk⟩
          exact ⟨fun hc => hns (List.mem_cons_of_mem _ hc), y, Or.inr hy, hyk⟩
      · rintro ⟨hns, x, hx | hx, hxk⟩
        · exact ⟨r, Or.inl rfl, hx ▸ hxk⟩
        · by_cases hrk : r.key = k
          · exact ⟨r, Or.inl rfl, hrk⟩
          · have hkn : k ∉ r.key :: seen := by
              intro hc
              rcases List.mem_cons.1 hc with hc1 | hc2
              · exact hrk hc1.symm
              · exact hns hc2
            obtain ⟨y, hy, hyk⟩ := (ih (r.key :: seen) k).2 ⟨hkn, x, hx, hxk⟩
            exact ⟨y, Or.inr hy, hyk⟩

/-- Every rule the filter keeps is the first rule of the input carrying its
key. -/
theorem uniqueScoringRulesAux_first :
    ∀ (rules : List ScoringRule) (seen : List String) (r : ScoringRule),
      r ∈ uniqueScoringRulesAux seen rules →
      rules.find? (fun x => x.key == r.key) = some r := by
  intro rules
  induction rules with
  | nil => intro seen r hr; simp [uniqueScoringRulesAux] at hr
  | cons x rs ih =>
    intro seen r hr
    by_cases hx : x.key ∈ seen
    · rw [uniqueScoringRulesAux, if_pos hx] at hr
      have hne : r.key ∉ seen := (uniqueScoringRulesAux_nodup_notin rs seen).2 r hr
      have hstep : List.find? (fun y => y.key == r.key) (x :: rs) =
          List.find? (fun y => y.key == r.key) rs := by
        refine List.find?_cons_of_neg rs ?_
        simp only [beq_iff_eq]
        intro hc; exact hne (hc ▸ hx)
      rw [hstep]
      exact ih seen r hr
    · rw [uniqueScoringRulesAux, if_neg hx] at hr
      rcases List.mem_cons.1 hr with rfl | hr2
      · exact List.find?_cons_of_pos rs (by simp)
      · have hne : r.key ∉ x.key :: seen :=
          (uniqueScoringRulesAux_nodup_notin rs (x.key :: seen)).2 r hr2
        have hstep : List.find? (fun y => y.key == r.key) (x :: rs) =
            List.find? (fun y => y.key == r.key) rs := by
          refine List.find?_cons_of_neg rs ?_
          simp only [beq_iff_eq]
          intro hc; exact hne (by simp [hc])
        rw [hstep]
        exact ih (x.key :: seen) r hr2

/-- The filtered registry is a sublist of the input, so relative order is
preserved. -/
theorem uniqueScoringRulesAux_sublist :
    ∀ (rules : List ScoringRule) (seen : List String),
      (uniqueScoringRulesAux seen rules).Sublist rules := by
  intro rules
  induction rules with
  | nil => intro seen; simp [uniqueScoringRulesAux]
  | cons r rs ih =>
    intro seen
    by_cases h : r.key ∈ seen
    · rw [uniqueScoringRulesAux, if_pos h]
      exact (ih seen).trans (List.sublist_cons_self _ _)
    · rw [uniqueScoringRulesAux, if_neg h]
      exact List.Sublist.cons₂ r (ih (r.key :: seen))

/-- Claim C1: for every registration list, possibly with duplicate keys, the
active catalog built by uniqueScoringRules contains each distinct key exactly
once (keys are pairwise distinct and exactly the keys of the registration
list), each kept entry is the first entry of the registration list with its
key (so the label of the first occurrence wins), and the catalog is a sublist
of the registration list (the relative order of first occurrences is
preserved). -/
theorem catalog_dedup_first_occurrence_order (rules : List ScoringRule) :
    ((uniqueScoringRules rules).map ScoringRule.key).Nodup ∧
    (∀ k, (∃ r ∈ uniqueScoringRules rules, r.key = k) ↔ ∃ r ∈ rules, r.key = k) ∧
    (∀ r ∈ uniqueScoringRules rules, rules.find? (fun x => x.key == r.key) = some r) ∧
    (uniqueScoringRules rules).Sublist rules := by
  refine ⟨(uniqueScoringRulesAux_nodup_notin rules []).1, ?_, ?_, ?_⟩
  · intro k
    simpa using uniqueScoringRulesAux_mem_key rules [] k
  · exact fun r hr => uniqueScoringRulesAux_first rules [] r hr
  · exact uniqueScoringRulesAux_sublist rules []

/-- A registration list with a duplicate key, for exercising the catalog
construction. -/
def demoRules : List ScoringRule :=
  [ScoringRule.mk "a" "First A" none,
   ScoringRule.mk "b" "Only B" none,
   ScoringRule.mk "a" "Second A" none]

/-- Claim C1, witness: the dedup theorem applied to a concrete registration
list with a duplicate key. -/
theorem catalog_dedup_first_occurrence_order_witness :
    ((uniqueScoringRules demoRules).map ScoringRule.key).Nodup ∧
    (uniqueScoringRules demoRules).Sublist demoRules :=
  ⟨(catalog_dedup_first_occurrence_order demoRules).1,
   (catalog_dedup_first_occurrence_order demoRules).2.2.2⟩

/-- Decision of a single pass-1 step for one catalog rule, ignoring the
processed set: the pushed entry, or none. -/
def pass1Entry (apiSettings : RawSettings) (rule : ScoringRule) :
    Option (String × FormattedScoringSetting) :=
  match apiSettings.lookup rule.key with
  | some (JsVal.num q) =>
    if q ≠ 0 ∧ (rule.key ∈ EXPLICIT_DISPLAY_KEYS ∨ isBonusKey rule.key = true)
    then some (rule.key, FormattedScoringSetting.mk rule.label q)
    else none
  | some JsVal.nonnum => none
  | none => none

/-- On a catalog whose keys are pairwise distinct and disjoint from the
starting processed set, the processed check never fires and pass 1 is the
entrywise filter of the catalog. -/
theorem pass1_eq_filterMap (apiSettings : RawSettings) :
    ∀ (rules : List ScoringRule) (proc : List String),
      (rules.map ScoringRule.key).Nodup →
      (∀ r ∈ rules, r.key ∉ proc) →
      (pass1 apiSettings rules proc).1 = rules.filterMap (pass1Entry apiSettings) := by
  intro rules
  induction rules with
  | nil => intro proc _ _; simp [pass1]
  | cons rule rest ih =>
    intro proc hnd hdisj
    have hnd2 : (rest.map ScoringRule.key).Nodup := (List.nodup_cons.1 hnd).2
    have hhead : rule.key ∉ rest.map ScoringRule.key := (List.nodup_cons.1 hnd).1
    have hdisj2 : ∀ r ∈ rest, r.key ∉ proc :=
      fun r hr => hdisj r (List.mem_cons_of_mem _ hr)
    have hrp : rule.key ∉ proc := hdisj rule (List.mem_cons_self _ _)
    cases hl : apiSettings.lookup rule.key with
    | none =>
      simp only [pass1, hl, List.filterMap_cons, pass1Entry]
      exact ih proc hnd2 hdisj2
    | some v =>
      cases v with
      | num q =>
        by_cases hc : q ≠ 0 ∧ (rule.key ∈ EXPLICIT_DISPLAY_KEYS ∨ isBonusKey rule.key = true)
        · simp only [pass1, hl, if_neg hrp, if_pos hc, List.filterMap_cons, pass1Entry]
          have hdisj3 : ∀ r ∈ rest, r.key ∉ rule.key :: proc := by
            intro r hr hmem
            rcases List.mem_cons.1 hmem with heq | hmem2
            · exact hhead (heq ▸ List.mem_map_of_mem ScoringRule.key hr)
            · exact hdisj2 r hr hmem2
          rw [ih (rule.key :: proc) hnd2 hdisj3]
        · simp only [pass1, hl, if_neg hrp, if_neg hc, List.filterMap_cons, pass1Entry]
          exact ih proc hnd2 hdisj2
      | nonnum =>
        simp only [pass1, hl, if_neg hrp, List.filterMap_cons, pass1Entry]
        exact ih proc hnd2 hdisj2

/-- Keys end up in the processed set exactly when they are keys of pushed
pass-1 entries or were processed before. -/
theorem pass1_processed_mem (apiSettings : RawSettings) :
    ∀ (rules : List ScoringRule) (proc : List String) (k : String),
      k ∈ (pass1 apiSettings rules proc).2 ↔
        k ∈ (pass1 apiSettings rules proc).1.map Prod.fst ∨ k ∈ proc := by
  intro rules
  induction rules with
  | nil => intro proc k; simp [pass1]
  | cons rule rest ih =>
    intro proc k
    cases hl : apiSettings.lookup rule.key with
    | none => simp only [pass1, hl]; exact ih proc k
    | some v =>
      by_cases hrp : rule.key ∈ proc
      · cases v with
        | num q => simp only [pass1, hl, if_pos hrp]; exact ih proc k
        | nonnum => simp only [pass1, hl, if_pos hrp]; exact ih proc k
      · cases v with
        | num q =>
          by_cases hc : q ≠ 0 ∧ (rule.key ∈ EXPLICIT_DISPLAY_KEYS ∨ isBonusKey rule.key = true)
          · simp only [pass1, hl, if_neg hrp, if_pos hc, List.map_cons, List.mem_cons]
            rw [ih (rule.key :: proc) k]
            constructor
            · rintro (h | h)
              · exact Or.inl (Or.inr h)
              · rcases List.mem_cons.1 h with h | h
                · exact Or.inl (Or.inl h)
                · exact Or.inr h
            · rintro ((h | h) | h)
              · exact Or.inr (List.mem_cons.2 (Or.inl h))
              · exact Or.inl h
              · exact Or.inr (List.mem_cons.2 (Or.inr h))
          · simp only [pass1, hl, if_neg hrp, if_neg hc]; exact ih proc k
        | nonnum => simp only [pass1, hl, if_neg hrp]; exact ih proc k

/-- Decision of a single pass-2 step for one raw property. -/
def pass2Entry (proc : List String) (p : String × JsVal) :
    Option (String × FormattedScoringSetting) :=
  if p.1 ∉ proc ∧ isBonusKey p.1 = true then
    match p.2 with
    | JsVal.num q =>
      if q ≠ 0 then some (p.1, FormattedScoringSetting.mk (pass2Label p.1) q) else none
    | JsVal.nonnum => none
  else none

/-- Pass 2 is the entrywise filter of the raw mapping. -/
theorem pass2_eq_filterMap (proc : List String) :
    ∀ (l : List (String × JsVal)), pass2 proc l = l.filterMap (pass2Entry proc) := by
  intro l
  induction l with
  | nil => simp [pass2]
  | cons p rest ih =>
    obtain ⟨apiKey, v⟩ := p
    by_cases hg : apiKey ∉ proc ∧ isBonusKey apiKey = true
    · cases v with
      | num q =>
        by_cases hq : q ≠ 0
        · simp only [pass2, if_pos hg, if_pos hq, List.filterMap_cons, pass2Entry, ih]
        · simp only [pass2, if_pos hg, if_neg hq, List.filterMap_cons, pass2Entry, ih]
      | nonnum =>
        simp only [pass2, if_pos hg, List.filterMap_cons, pass2Entry, ih]
    · cases v with
      | num q =>
        simp only [pass2, if_neg hg, List.filterMap_cons, pass2Entry, ih]
      | nonnum =>
        simp only [pass2, if_neg hg, List.filterMap_cons, pass2Entry, ih]

/-- Keys of a filterMap whose values keep the key of their source form a
sublist of the source keys. -/
theorem map_filterMap_key_sublist {α β γ : Type} (f : α → Option β)
    (ka : α → γ) (kb : β → γ) (h : ∀ a b, f a = some b → kb b = ka a) :
    ∀ l : List α, ((l.filterMap f).map kb).Sublist (l.map ka) := by
  intro l
  induction l with
  | nil => simp
  | cons a rest ih =>
    cases hf : f a with
    | none =>
      simp only [List.filterMap_cons, hf, List.map_cons]
      exact ih.trans (List.sublist_cons_self _ _)
    | some b =>
      simp only [List.filterMap_cons, hf, List.map_cons, h a b hf]
      exact List.Sublist.cons₂ _ ih

/-- A successful association-list lookup exhibits a member pair. -/
theorem lookup_mem {β : Type} (l : List (String × β)) (k : String) (v : β)
    (h : l.lookup k = some v) : (k, v) ∈ l := by
  induction l with
  | nil => simp [List.lookup] at h
  | cons p rest ih =>
    obtain ⟨k1, v1⟩ := p
    rw [List.lookup] at h
    cases hk : k == k1 with
    | true =>
      rw [hk] at h
      cases h
      exact (beq_iff_eq.1 hk) ▸ List.mem_cons_self _ _
    | false =>
      rw [hk] at h
      exact List.mem_cons_of_mem _ (ih h)

/-- The active catalog has pairwise distinct keys. -/
theorem unique_rules_keys_nodup :
    (UNIQUE_SCORING_RULES.map ScoringRule.key).Nodup :=
  (uniqueScoringRulesAux_nodup_notin ALL_SCORING_RULES []).1

/-- Pass 1 on the active catalog, in its filterMap form. -/
theorem pass1_catalog (raw : RawSettings) :
    (pass1 raw UNIQUE_SCORING_RULES []).1 =
      UNIQUE_SCORING_RULES.filterMap (pass1Entry raw) :=
  pass1_eq_filterMap raw UNIQUE_SCORING_RULES [] unique_rules_keys_nodup (by simp)

/-- Membership in the normalizer output is membership in the unsorted
combined pass output: the final sort is a permutation. -/
theorem mem_getDisplayableScoringSettings (lcmp : String → String → Int)
    (raw : RawSettings) (e : FormattedScoringSetting) :
    e ∈ getDisplayableScoringSettings lcmp (some raw) ↔ e ∈ combinedSettings raw := by
  show e ∈ List.insertionSort (settingLe lcmp) (combinedSettings raw) ↔ _
  exact (List.perm_insertionSort (settingLe lcmp) (combinedSettings raw)).mem_iff

/-- An empty combined pass output sorts to an empty normalizer output. -/
theorem getDisplayableScoringSettings_eq_nil (lcmp : String → String → Int)
    (raw : RawSettings) (h : combinedSettings raw = []) :
    getDisplayableScoringSettings lcmp (some raw) = [] := by
  show List.insertionSort (settingLe lcmp) (combinedSettings raw) = []
  rw [h]
  rfl

/-- The decimal threshold and the explicit fraction agree. -/
theorem ratFourHundredths_eq : ratFourHundredths = (0.04 : Rat) := by
  show Rat.mk' 1 25 ratFourHundredths.proof_1 ratFourHundredths.proof_2 = _
  rw [Rat.mk'_eq_divInt, Rat.divInt_eq_div]
  norm_num

/-- Inversion of a pass-1 push: the pushed entry records the key and label of
its rule and a nonzero numeric raw value passing the gate. -/
theorem pass1Entry_some (raw : RawSettings) (rule : ScoringRule)
    (e : String × FormattedScoringSetting) (h : pass1Entry raw rule = some e) :
    ∃ q : Rat, raw.lookup rule.key = some (JsVal.num q) ∧ q ≠ 0 ∧
      (rule.key ∈ EXPLICIT_DISPLAY_KEYS ∨ isBonusKey rule.key = true) ∧
      e = (rule.key, FormattedScoringSetting.mk rule.label q) := by
  unfold pass1Entry at h
  cases hl : raw.lookup rule.key with
  | none => rw [hl] at h; simp at h
  | some v =>
    rw [hl] at h
    cases v with
    | nonnum => simp at h
    | num q =>
      replace h : (if q ≠ 0 ∧ (rule.key ∈ EXPLICIT_DISPLAY_KEYS ∨
          isBonusKey rule.key = true) then
            some (rule.key, FormattedScoringSetting.mk rule.label q)
          else none) = some e := h
      by_cases hc : q ≠ 0 ∧ (rule.key ∈ EXPLICIT_DISPLAY_KEYS ∨ isBonusKey rule.key = true)
      · rw [if_pos hc] at h
        exact ⟨q, rfl, hc.1, hc.2, (Option.some.injEq _ _ ▸ h).symm⟩
      · rw [if_neg hc] at h; simp at h

/-- Inversion of a pass-2 push. -/
theorem pass2Entry_some (proc : List String) (p : String × JsVal)
    (e : String × FormattedScoringSetting) (h : pass2Entry proc p = some e) :
    ∃ q : Rat, p.2 = JsVal.num q ∧ q ≠ 0 ∧ p.1 ∉ proc ∧
      isBonusKey p.1 = true ∧
      e = (p.1, FormattedScoringSetting.mk (pass2Label p.1) q) := by
  unfold pass2Entry at h
  by_cases hg : p.1 ∉ proc ∧ isBonusKey p.1 = true
  · rw [if_pos hg] at h
    cases hv : p.2 with
    | nonnum => rw [hv] at h; simp at h
    | num q =>
      rw [hv] at h
      replace h : (if q ≠ 0 then
          some (p.1, FormattedScoringSetting.mk (pass2Label p.1) q)
        else none) = some e := h
      by_cases hq : q ≠ 0
      · rw [if_pos hq] at h
        exact ⟨q, rfl, hq, hg.1, hg.2, (Option.some.injEq _ _ ▸ h).symm⟩
      · rw [if_neg hq] at h; simp at h
  · rw [if_neg hg] at h; simp at h

set_option maxRecDepth 20000 in
/-- Claim C2: pass-1 gating.  For every raw mapping and every active-catalog
rule whose key is present in the mapping, the keyed entry carrying the label
of the rule and a value q is pushed by pass 1 exactly when the raw value is
the nonzero number q and the key is allow-listed or bonus-prefixed.
Concretely, raw rec 1 yields output entry PPR 1, while raw pass_yd 0.04 is
excluded and the output is empty. -/
theorem pass1_gating :
    (∀ (raw : RawSettings) (rule : ScoringRule) (v : JsVal) (q : Rat),
      rule ∈ UNIQUE_SCORING_RULES →
      raw.lookup rule.key = some v →
      ((rule.key, FormattedScoringSetting.mk rule.label q) ∈
          (pass1 raw UNIQUE_SCORING_RULES []).1 ↔
        (v = JsVal.num q ∧ q ≠ 0 ∧
          (rule.key ∈ EXPLICIT_DISPLAY_KEYS ∨ isBonusKey rule.key = true)))) ∧
    (∀ lcmp, FormattedScoringSetting.mk "PPR" 1 ∈
      getDisplayableScoringSettings lcmp (some [("rec", JsVal.num 1)])) ∧
    (∀ lcmp, getDisplayableScoringSettings lcmp
      (some [("pass_yd", JsVal.num ratFourHundredths)]) = []) := by
  refine ⟨?_, ?_, ?_⟩
  · intro raw rule v q hrule hlook
    rw [pass1_catalog, List.mem_filterMap]
    constructor
    · rintro ⟨a, ha, hfa⟩
      obtain ⟨q2, hl2, hq2, hg2, he2⟩ := pass1Entry_some raw a _ hfa
      simp only [Prod.mk.injEq, FormattedScoringSetting.mk.injEq] at he2
      obtain ⟨hk, _, hqq⟩ := he2
      refine ⟨?_, hqq ▸ hq2, hk ▸ hg2⟩
      have hv2 : some v = some (JsVal.num q2) := by
        rw [← hlook, hk]; exact hl2
      rw [hqq]
      exact Option.some.inj hv2
    · rintro ⟨hv, hq, hg⟩
      refine ⟨rule, hrule, ?_⟩
      unfold pass1Entry
      rw [hlook, hv]
      show (if q ≠ 0 ∧ (rule.key ∈ EXPLICIT_DISPLAY_KEYS ∨
          isBonusKey rule.key = true) then
            some (rule.key, FormattedScoringSetting.mk rule.label q)
          else none) = _
      rw [if_pos ⟨hq, hg⟩]
  · intro lcmp
    rw [mem_getDisplayableScoringSettings]
    decide
  · intro lcmp
    refine getDisplayableScoringSettings_eq_nil lcmp _ ?_
    decide

/-- Claim C2, witness: the gating equivalence instantiated on the raw mapping
rec maps-to 1 and the PPR catalog rule. -/
theorem pass1_gating_witness :
    ("rec", FormattedScoringSetting.mk "PPR" 1) ∈
      (pass1 [("rec", JsVal.num 1)] UNIQUE_SCORING_RULES []).1 :=
  (pass1_gating.1 [("rec", JsVal.num 1)] (ScoringRule.mk "rec" "PPR" none)
    (JsVal.num 1) 1 (by decide) (by decide)).mpr ⟨rfl, by decide, by decide⟩

/-- A fixed total locale comparison for concrete runs: lexicographic string
order rendered as a JavaScript-style comparator. -/
def lcmpDemo : String → String → Int :=
  fun a b => if a < b then -1 else if b < a then 1 else 0

/-- The demo comparator answers at most zero exactly on ordered pairs. -/
theorem lcmpDemo_le (a b : String) : lcmpDemo a b ≤ 0 ↔ a ≤ b := by
  unfold lcmpDemo
  by_cases h1 : a < b
  · rw [if_pos h1]
    simp [le_of_lt h1]
  · rw [if_neg h1]
    by_cases h2 : b < a
    · rw [if_pos h2]
      constructor
      · intro h; exact absurd h (by decide)
      · intro hab; exact absurd hab (not_le.mpr h2)
    · rw [if_neg h2]
      simp [not_lt.mp h2]

/-- The demo comparator is total. -/
theorem lcmpDemo_total (a b : String) : lcmpDemo a b ≤ 0 ∨ lcmpDemo b a ≤ 0 := by
  rw [lcmpDemo_le, lcmpDemo_le]
  exact le_total a b

/-- The demo comparator is transitive. -/
theorem lcmpDemo_trans (a b c : String) :
    lcmpDemo a b ≤ 0 → lcmpDemo b c ≤ 0 → lcmpDemo a c ≤ 0 := by
  rw [lcmpDemo_le, lcmpDemo_le, lcmpDemo_le]
  exact le_trans

/-- Claim C3: pass-2 bonus fallback.  Every raw key that pass 1 left
unprocessed, carrying the bonus marker and a nonzero numeric value, reaches
the output with that value under the pass-2 label, and the pass-2 label is
the label of the catalog rule found for the key when one exists, otherwise
the humanized key. -/
theorem pass2_bonus_fallback :
    (∀ (lcmp : String → String → Int) (raw : RawSettings) (k : String) (q : Rat),
      (k, JsVal.num q) ∈ raw →
      k ∉ (pass1 raw UNIQUE_SCORING_RULES []).2 →
      isBonusKey k = true →
      q ≠ 0 →
      FormattedScoringSetting.mk (pass2Label k) q ∈
        getDisplayableScoringSettings lcmp (some raw)) ∧
    (∀ k r, UNIQUE_SCORING_RULES.find? (fun x => x.key == k) = some r →
      pass2Label k = r.label) ∧
    (∀ k, UNIQUE_SCORING_RULES.find? (fun x => x.key == k) = none →
      pass2Label k = humanizeKey k) := by
  refine ⟨?_, ?_, ?_⟩
  · intro lcmp raw k q hmem hnp hb hq
    rw [mem_getDisplayableScoringSettings]
    unfold combinedSettings
    rw [List.mem_map]
    refine ⟨(k, FormattedScoringSetting.mk (pass2Label k) q), ?_, rfl⟩
    apply List.mem_append_right
    rw [pass2_eq_filterMap]
    refine List.mem_filterMap.2 ⟨(k, JsVal.num q), hmem, ?_⟩
    unfold pass2Entry
    rw [if_pos ⟨hnp, hb⟩]
    show (if q ≠ 0 then some (k, FormattedScoringSetting.mk (pass2Label k) q)
          else none) = _
    rw [if_pos hq]
  · intro k r h
    unfold pass2Label
    rw [h]
  · intro k h
    unfold pass2Label
    rw [h]

set_option maxRecDepth 20000 in
/-- Claim C3, witness: the fallback instantiated on a bonus key unknown to
the catalog, yielding the humanized label. -/
theorem pass2_bonus_fallback_witness :
    FormattedScoringSetting.mk "Bonus Unknown Thing" 2 ∈
      getDisplayableScoringSettings lcmpDemo
        (some [("bonus_unknown_thing", JsVal.num 2)]) := by
  have h := pass2_bonus_fallback.1 lcmpDemo [("bonus_unknown_thing", JsVal.num 2)]
    "bonus_unknown_thing" 2 (by decide) (by decide) (by decide) (by decide)
  have hl : pass2Label "bonus_unknown_thing" = "Bonus Unknown Thing" := by decide
  rw [hl] at h
  exact h

set_option maxRecDepth 20000 in
/-- Claim C4: every output entry of the normalizer carries a nonzero value
that stems from a numeric raw property, and a null, undefined or empty raw
mapping yields an empty output. -/
theorem normalizer_nonzero_numeric :
    ∀ lcmp : String → String → Int,
      getDisplayableScoringSettings lcmp none = [] ∧
      getDisplayableScoringSettings lcmp (some []) = [] ∧
      ∀ (raw : RawSettings) (e : FormattedScoringSetting),
        e ∈ getDisplayableScoringSettings lcmp (some raw) →
        e.value ≠ 0 ∧ ∃ k, (k, JsVal.num e.value) ∈ raw := by
  intro lcmp
  refine ⟨rfl, getDisplayableScoringSettings_eq_nil lcmp [] (by decide), ?_⟩
  intro raw e he
  rw [mem_getDisplayableScoringSettings] at he
  unfold combinedSettings at he
  rw [List.mem_map] at he
  obtain ⟨⟨k, e2⟩, hmem, he2⟩ := he
  have he3 : e2 = e := he2
  subst he3
  rcases List.mem_append.1 hmem with hp | hp
  · rw [pass1_catalog] at hp
    obtain ⟨rule, _, hf⟩ := List.mem_filterMap.1 hp
    obtain ⟨q, hlk, hq, _, heq⟩ := pass1Entry_some raw rule _ hf
    simp only [Prod.mk.injEq, FormattedScoringSetting.mk.injEq] at heq
    have hval : e2.value = q := by rw [heq.2]
    refine ⟨hval ▸ hq, rule.key, ?_⟩
    rw [hval]
    exact lookup_mem raw rule.key (JsVal.num q) hlk
  · rw [pass2_eq_filterMap] at hp
    obtain ⟨p, hpraw, hf⟩ := List.mem_filterMap.1 hp
    obtain ⟨q, hv, hq, _, _, heq⟩ := pass2Entry_some _ p _ hf
    simp only [Prod.mk.injEq, FormattedScoringSetting.mk.injEq] at heq
    have hval : e2.value = q := by rw [heq.2]
    refine ⟨hval ▸ hq, p.1, ?_⟩
    rw [hval]
    have hpp : p = (p.1, JsVal.num q) := by
      rcases p with ⟨p1, p2⟩
      rw [Prod.mk.injEq]
      exact ⟨rfl, hv⟩
    rw [← hpp]
    exact hpraw

/-- Claim C4, witness: the invariant instantiated on a concrete raw mapping
with a zero, a non-numeric and a nonzero property. -/
theorem normalizer_nonzero_numeric_witness :
    getDisplayableScoringSettings lcmpDemo none = [] ∧
    ∀ e ∈ getDisplayableScoringSettings lcmpDemo
        (some [("rec", JsVal.num 1), ("pass_td", JsVal.num 0), ("sack", JsVal.nonnum)]),
      e.value ≠ 0 :=
  ⟨(normalizer_nonzero_numeric lcmpDemo).1,
   fun e he => ((normalizer_nonzero_numeric lcmpDemo).2.2 _ e he).1⟩

/-- Claim C5: for every comparator that is total and transitive on the
at-most-zero side, as a locale comparison is, the normalizer output is sorted
non-decreasingly by label; the output is computed afresh from the raw mapping
by a pure function, so repeated calls agree definitionally. -/
theorem normalizer_sorted :
    ∀ (lcmp : String → String → Int),
      (∀ a b, lcmp a b ≤ 0 ∨ lcmp b a ≤ 0) →
      (∀ a b c, lcmp a b ≤ 0 → lcmp b c ≤ 0 → lcmp a c ≤ 0) →
      ∀ apiSettings, List.Sorted (settingLe lcmp)
        (getDisplayableScoringSettings lcmp apiSettings) := by
  intro lcmp htot htr apiSettings
  haveI : IsTotal FormattedScoringSetting (settingLe lcmp) :=
    ⟨fun a b => htot a.label b.label⟩
  haveI : IsTrans FormattedScoringSetting (settingLe lcmp) :=
    ⟨fun a b c hab hbc => htr a.label b.label c.label hab hbc⟩
  cases apiSettings with
  | none => exact List.sorted_nil
  | some raw => exact List.sorted_insertionSort (settingLe lcmp) (combinedSettings raw)

/-- Claim C5, witness: sortedness of a concrete run under the demo
comparator. -/
theorem normalizer_sorted_witness :
    List.Sorted (settingLe lcmpDemo)
      (getDisplayableScoringSettings lcmpDemo
        (some [("rec", JsVal.num 1), ("pass_td", JsVal.num 4),
               ("bonus_rec_te", JsVal.num 2)])) :=
  normalizer_sorted lcmpDemo lcmpDemo_total lcmpDemo_trans _

/-- Claim C10: with distinct raw keys, as a JavaScript object guarantees,
the keyed entries pushed by the two passes carry pairwise distinct keys, so
each raw key contributes at most one output entry. -/
theorem at_most_one_entry_per_key :
    ∀ (raw : RawSettings), (raw.map Prod.fst).Nodup →
      ∀ k : String,
        (((pass1 raw UNIQUE_SCORING_RULES []).1 ++
          pass2 (pass1 raw UNIQUE_SCORING_RULES []).2 raw).map Prod.fst).count k ≤ 1 := by
  intro raw hnd k
  have h1 : ((pass1 raw UNIQUE_SCORING_RULES []).1.map Prod.fst).Nodup := by
    rw [pass1_catalog]
    have hsub := map_filterMap_key_sublist (pass1Entry raw) ScoringRule.key Prod.fst
      (fun a b hb => by
        obtain ⟨q, _, _, _, he⟩ := pass1Entry_some raw a b hb
        rw [he]) UNIQUE_SCORING_RULES
    exact unique_rules_keys_nodup.sublist hsub
  have h2 : ((pass2 (pass1 raw UNIQUE_SCORING_RULES []).2 raw).map Prod.fst).Nodup := by
    rw [pass2_eq_filterMap]
    have hsub := map_filterMap_key_sublist
      (pass2Entry (pass1 raw UNIQUE_SCORING_RULES []).2) Prod.fst Prod.fst
      (fun a b hb => by
        obtain ⟨q, _, _, _, _, he⟩ := pass2Entry_some _ a b hb
        rw [he]) raw
    exact hnd.sublist hsub
  have hdisj : List.Disjoint
      ((pass1 raw UNIQUE_SCORING_RULES []).1.map Prod.fst)
      ((pass2 (pass1 raw UNIQUE_SCORING_RULES []).2 raw).map Prod.fst) := by
    intro a ha1 ha2
    have hproc : a ∈ (pass1 raw UNIQUE_SCORING_RULES []).2 :=
      (pass1_processed_mem raw UNIQUE_SCORING_RULES [] a).2 (Or.inl ha1)
    obtain ⟨b, hb, hfst⟩ := List.mem_map.1 ha2
    rw [pass2_eq_filterMap] at hb
    obtain ⟨p, _, hf⟩ := List.mem_filterMap.1 hb
    obtain ⟨q, _, _, hnp, _, he⟩ := pass2Entry_some _ p _ hf
    have hbk : b.1 = p.1 := by rw [he]
    exact hnp ((hbk ▸ hfst) ▸ hproc)
  have hnodup : (((pass1 raw UNIQUE_SCORING_RULES []).1 ++
      pass2 (pass1 raw UNIQUE_SCORING_RULES []).2 raw).map Prod.fst).Nodup := by
    rw [List.map_append]
    exact List.nodup_append.2 ⟨h1, h2, hdisj⟩
  exact List.nodup_iff_count_le_one.1 hnodup k

set_option maxRecDepth 20000 in
/-- Claim C10, witness: the bound instantiated on a concrete raw mapping and
the key rec. -/
theorem at_most_one_entry_per_key_witness :
    (((pass1 [("rec", JsVal.num 1), ("bonus_rec_te", JsVal.num 2)]
        UNIQUE_SCORING_RULES []).1 ++
      pass2 (pass1 [("rec", JsVal.num 1), ("bonus_rec_te", JsVal.num 2)]
        UNIQUE_SCORING_RULES []).2
        [("rec", JsVal.num 1), ("bonus_rec_te", JsVal.num 2)]).map
          Prod.fst).count "rec" ≤ 1 :=
  at_most_one_entry_per_key [("rec", JsVal.num 1), ("bonus_rec_te", JsVal.num 2)]
    (by decide) "rec"

/-- A resolved user for concrete runs. -/
def demoUser : SleeperResolvedUser := SleeperResolvedUser.mk "1234" "beastly" none

/-- A session state with a resolved identity, a loaded league list and a
selected league, for concrete runs. -/
def demoState : SessionState :=
  SessionState.mk "beastly" (some demoUser) (some "beastly")
    [BasicSleeperLeague.mk "L1" "My League" "2025"] "L1" none 2025
    false false none none []

/-- Claim C6, counterexample: a transport failure of the leagues call
resolves to the bare empty array, the very value a zero-league success
resolves to.  No error flag accompanies the result, so the failure is not
distinguishable from the valid empty outcome, contrary to the claim. -/
theorem leagues_failure_no_error_flag :
    fetchSleeperLeaguesForYear true (LeaguesOutcome.transportError "network down") =
      Except.ok [] ∧
    fetchSleeperLeaguesForYear true (LeaguesOutcome.success []) = Except.ok [] :=
  ⟨rfl, rfl⟩

/-- Claim C6, amended: a transport or non-success response of the
league-enumeration call resolves to a plain empty league set carrying no
error flag (hence indistinguishable from the zero-league outcome at the
return value); the session is not aborted: the promise does not reject, and
completing the fetch leaves the resolved identity and the error slot of the
session unchanged while storing the empty list. -/
theorem leagues_failure_degrades_to_empty :
    ∀ o : LeaguesOutcome, (∀ ls, o ≠ LeaguesOutcome.success ls) →
      fetchSleeperLeaguesForYear true o = Except.ok [] ∧
      ∀ s : SessionState,
        (leaguesFetchComplete s true o).resolvedUser = s.resolvedUser ∧
        (leaguesFetchComplete s true o).error = s.error ∧
        (leaguesFetchComplete s true o).leagues = [] := by
  intro o ho
  cases o with
  | success ls => exact absurd rfl (ho ls)
  | httpError d st => exact ⟨rfl, fun _ => ⟨rfl, rfl, rfl⟩⟩
  | transportError m => exact ⟨rfl, fun _ => ⟨rfl, rfl, rfl⟩⟩

/-- Claim C6, witness for the amended statement: a concrete transport failure
against the demo session. -/
theorem leagues_failure_degrades_to_empty_witness :
    fetchSleeperLeaguesForYear true (LeaguesOutcome.transportError "network down") =
      Except.ok [] ∧
    (leaguesFetchComplete demoState true
      (LeaguesOutcome.transportError "network down")).resolvedUser =
        demoState.resolvedUser :=
  ⟨(leagues_failure_degrades_to_empty (LeaguesOutcome.transportError "network down")
      (fun _ h => LeaguesOutcome.noConfusion h)).1,
   ((leagues_failure_degrades_to_empty (LeaguesOutcome.transportError "network down")
      (fun _ h => LeaguesOutcome.noConfusion h)).2 demoState).1⟩

/-- Claim C7: changing the season while an identity is resolved clears the
league selection, the loaded detail, the displayable scoring and the league
list, re-enters league loading for the same identity and the new season, and
leaves the resolved user and the display name untouched: identity resolution
is not re-run, and the issued request names the already-resolved user id with
the new year. -/
theorem season_change_invalidation :
    ∀ (s : SessionState) (u : SleeperResolvedUser) (y : Int),
      s.resolvedUser = some u → u.user_id ≠ "" →
      (seasonChangeStart s y).1.resolvedUser = some u ∧
      (seasonChangeStart s y).1.selectedLeagueId = "" ∧
      (seasonChangeStart s y).1.selectedLeagueDetails = none ∧
      (seasonChangeStart s y).1.displayableScoring = [] ∧
      (seasonChangeStart s y).1.leagues = [] ∧
      (seasonChangeStart s y).1.isLoading = true ∧
      (seasonChangeStart s y).1.leagueYear = y ∧
      (seasonChangeStart s y).1.displayName = s.displayName ∧
      (seasonChangeStart s y).2 = some (u.user_id, y) := by
  intro s u y hres huid
  unfold seasonChangeStart leaguesEffectStart seasonSelectChange
  simp [hres, huid]

/-- Claim C7, witness: a concrete season change on the demo session. -/
theorem season_change_invalidation_witness :
    (seasonChangeStart demoState 2024).1.resolvedUser = some demoUser ∧
    (seasonChangeStart demoState 2024).1.selectedLeagueId = "" ∧
    (seasonChangeStart demoState 2024).1.selectedLeagueDetails = none ∧
    (seasonChangeStart demoState 2024).1.displayableScoring = [] ∧
    (seasonChangeStart demoState 2024).1.leagues = [] ∧
    (seasonChangeStart demoState 2024).1.isLoading = true ∧
    (seasonChangeStart demoState 2024).1.leagueYear = 2024 ∧
    (seasonChangeStart demoState 2024).1.displayName = demoState.displayName ∧
    (seasonChangeStart demoState 2024).2 = some (demoUser.user_id, 2024) :=
  season_change_invalidation demoState demoUser 2024 rfl (by decide)

/-- Claim C8: a failing league-detail fetch, whether the promise resolves to
null after a caught transport or HTTP failure or rejects outright, sets only
the detail-scoped error and leaves the resolved identity, the league list,
the display name and the general error slot unchanged. -/
theorem detail_failure_scoped :
    ∀ (lcmp : String → String → Int) (s : SessionState) (lid : String)
      (b : Bool) (o : DetailOutcome),
      lid ≠ "" →
      (b = false ∨ ∀ d, o ≠ DetailOutcome.success d) →
      (handleLeagueChange lcmp s lid b o).resolvedUser = s.resolvedUser ∧
      (handleLeagueChange lcmp s lid b o).leagues = s.leagues ∧
      (handleLeagueChange lcmp s lid b o).displayName = s.displayName ∧
      (handleLeagueChange lcmp s lid b o).error = s.error ∧
      ∃ m, (handleLeagueChange lcmp s lid b o).leagueDetailsError = some m := by
  intro lcmp s lid b o hlid hfail
  cases b with
  | false =>
    simp [handleLeagueChange, fetchSleeperLeagueDetails, hlid]
  | true =>
    have ho : ∀ d, o ≠ DetailOutcome.success d := by
      rcases hfail with hb | ho
      · exact absurd hb (by decide)
      · exact ho
    cases o with
    | success d => exact absurd rfl (ho d)
    | httpError d st =>
      simp [handleLeagueChange, fetchSleeperLeagueDetails, hlid]
    | transportError m =>
      simp [handleLeagueChange, fetchSleeperLeagueDetails, hlid]

/-- Claim C8, witness: a concrete transport failure of the detail fetch on
the demo session. -/
theorem detail_failure_scoped_witness :
    (handleLeagueChange lcmpDemo demoState "L2" true
      (DetailOutcome.transportError "boom")).resolvedUser = demoState.resolvedUser ∧
    ∃ m, (handleLeagueChange lcmpDemo demoState "L2" true
      (DetailOutcome.transportError "boom")).leagueDetailsError = some m :=
  ⟨(detail_failure_scoped lcmpDemo demoState "L2" true
      (DetailOutcome.transportError "boom") (by decide)
      (Or.inr (fun d h => DetailOutcome.noConfusion h))).1,
   (detail_failure_scoped lcmpDemo demoState "L2" true
      (DetailOutcome.transportError "boom") (by decide)
      (Or.inr (fun d h => DetailOutcome.noConfusion h))).2.2.2.2⟩

/-- Claim C9: resolveSleeperInput always resolves.  On a missing base URL, a
non-2xx response or a transport failure it resolves to a record whose error
field holds a nonempty message; on a parsed success body it resolves to that
body unchanged (in particular, a backend-reported nonempty error field is
passed through). -/
theorem resolve_never_rejects :
    ∀ (b : Bool) (o : ResolveOutcome),
      ((b = false ∨ (∃ d st, o = ResolveOutcome.httpError d st) ∨
        (∃ m, o = ResolveOutcome.transportError m)) →
        ∃ m, (resolveSleeperInput b o).error = some m ∧ m ≠ "") ∧
      (∀ u, b = true → o = ResolveOutcome.success u → resolveSleeperInput b o = u) := by
  intro b o
  constructor
  · intro hfail
    have herr : ∃ msg, resolveTryBody b o = Except.error msg := by
      cases b with
      | false => exact ⟨_, rfl⟩
      | true =>
        rcases hfail with hb | ⟨d, st, rfl⟩ | ⟨m, rfl⟩
        · exact absurd hb (by decide)
        · exact ⟨_, rfl⟩
        · exact ⟨_, rfl⟩
    obtain ⟨msg, hmsg⟩ := herr
    have hres : resolveSleeperInput b o = SleeperResolvedUser.mk "" ""
        (some (if msg = "" then "Unknown error during input resolution" else msg)) := by
      unfold resolveSleeperInput
      rw [hmsg]
    rw [hres]
    by_cases hm : msg = ""
    · rw [if_pos hm]
      exact ⟨"Unknown error during input resolution", rfl, by decide⟩
    · rw [if_neg hm]
      exact ⟨msg, rfl, hm⟩
  · rintro u hb rfl
    subst hb
    rfl

/-- Claim C9, witness: a transport failure with an empty exception message
resolves to the fallback message, and a successful body passes through. -/
theorem resolve_never_rejects_witness :
    (∃ m, (resolveSleeperInput true (ResolveOutcome.transportError "")).error =
      some m ∧ m ≠ "") ∧
    resolveSleeperInput true (ResolveOutcome.success demoUser) = demoUser :=
  ⟨(resolve_never_rejects true (ResolveOutcome.transportError "")).1
      (Or.inr (Or.inr ⟨"", rfl⟩)),
   (resolve_never_rejects true (ResolveOutcome.success demoUser)).2 demoUser rfl rfl⟩
